import Mathlib

/-!
Verification development for the Siemens AI CNC assistant.

The data model follows the types module of the repository; the session
controller follows `handleReset`, `handleStopGeneration` and
`handleSendMessage` in `src/App.tsx`.  The asynchronous turn of
`handleSendMessage` is embedded as two explicit steps: `sendStart`
(everything before the `await` of the analysis call) and `resolveTurn`
(the code that runs once the call resolves, including the `catch` and
`finally` blocks).  Numbers are embedded as rationals.
-/

namespace SiemensAI

/-! ## Data model (types module) -/

inductive MachineOperationType
  | CIRCULAR_POCKET
  | RECTANGULAR_POCKET
  | DRILL
  | FACE_MILL
  | CONTOUR
  | UNKNOWN
  deriving DecidableEq

inductive ToolType
  | END_MILL
  | BALL_MILL
  | DRILL
  | FACE_MILL
  deriving DecidableEq

inductive StockShape
  | RECTANGULAR
  | CYLINDRICAL
  deriving DecidableEq

structure StockDimensions where
  shape : StockShape
  width : ℚ
  length : ℚ
  height : ℚ
  diameter : ℚ
  material : String
  deriving DecidableEq

inductive SegmentType
  | LINE
  | ARC_CW
  | ARC_CCW
  deriving DecidableEq

structure PathSegment where
  type : SegmentType
  x : ℚ
  y : ℚ
  cx : Option ℚ
  cy : Option ℚ
  radius : Option ℚ
  deriving DecidableEq

structure OperationParams where
  type : MachineOperationType
  x : ℚ
  y : ℚ
  z_start : ℚ
  z_depth : ℚ
  diameter : Option ℚ
  width : Option ℚ
  length : Option ℚ
  path_segments : Option (List PathSegment)
  feed_rate : ℚ
  spindle_speed : ℚ
  tool_diameter : ℚ
  tool_type : ToolType
  step_down : ℚ
  deriving DecidableEq

structure CNCOutput where
  gcode : String
  explanation : String
  operations : List OperationParams
  stock : StockDimensions
  deriving DecidableEq

inductive ChatRole
  | user
  | ai
  deriving DecidableEq

structure ChatMessage where
  id : String
  role : ChatRole
  text : String
  attachment : Option String
  cncResult : Option CNCOutput
  deriving DecidableEq

inductive AppMode
  | GENERATE
  | OPTIMIZE
  deriving DecidableEq

structure Attachment where
  fileName : String
  mimeType : String
  data : String
  deriving DecidableEq

/-- The result produced by the analysis call (the shape read off the
analysis result in `handleSendMessage`). -/
structure AnalysisResult where
  operation : OperationParams
  stock : StockDimensions
  explanation : String
  optimized_gcode : Option String
  deriving DecidableEq

/-! ## String containment (the `String.prototype.includes` checks) -/

/-- `matchesAt needle hay` holds when `needle` is an initial segment of
`hay`, character by character. -/
def matchesAt : List Char → List Char → Bool
  | [], _ => true
  | _ :: _, [] => false
  | a :: as, b :: bs => a = b && matchesAt as bs

/-- `subListAt needle hay` holds when `needle` occurs contiguously
somewhere in `hay`. -/
def subListAt (needle : List Char) : List Char → Bool
  | [] => needle.isEmpty
  | c :: rest => matchesAt needle (c :: rest) || subListAt needle rest

/-- Embedding of the JavaScript `hay.includes(needle)` test. -/
def strIncludes (hay needle : String) : Bool :=
  subListAt needle.toList hay.toList

/-! ## Failure payloads and their classification (App.tsx lines 123-146) -/

/-- A failure payload thrown by the analysis call, as observed by the
`catch` clause: its `name` property, its `message` property (absent on
non-Error payloads such as plain strings or objects) and the text that
`JSON.stringify` produces for it. -/
structure ErrPayload where
  name : Option String
  message : Option String
  serialized : String
  deriving DecidableEq

def genericFailureText : String := "无法处理您的请求，请稍后重试。"

def quotaFailureText : String :=
  "⚠️ API 调用配额已耗尽 (429 Error)。请稍作休息，或检查您的 Google AI Studio 配额。"

def parseFailureText : String :=
  "⚠️ 数据解析失败，建议您提供更清晰的描述或简单的图纸。"

/-- `err.message || default`: the message property when it is truthy
(present and nonempty), the generic default otherwise. -/
def errMessageOrDefault (e : ErrPayload) : String :=
  match e.message with
  | some m => if m = "" then genericFailureText else m
  | none => genericFailureText

/-- Truthiness of `err.message`. -/
def msgTruthy (e : ErrPayload) : Bool :=
  match e.message with
  | some m => m ≠ ""
  | none => false

/-- The condition of the 429 branch:
`errStr.includes("429") || (err.message && err.message.includes("429")) || errStr.includes("quota")`. -/
def isQuotaFailure (e : ErrPayload) : Bool :=
  strIncludes e.serialized "429" ||
    (msgTruthy e && strIncludes (e.message.getD "") "429") ||
    strIncludes e.serialized "quota"

/-- The surfaced error text, following the branch structure of
App.tsx lines 131-139. -/
def classifyError (e : ErrPayload) : String :=
  if isQuotaFailure e then quotaFailureText
  else if strIncludes (errMessageOrDefault e) "JSON" then parseFailureText
  else errMessageOrDefault e

inductive ErrCategory
  | quota
  | parse
  | generic
  deriving DecidableEq

/-- Which of the three non-cancellation failure branches a payload takes;
the branch conditions are exactly those of `classifyError`. -/
def errCategory (e : ErrPayload) : ErrCategory :=
  if isQuotaFailure e then .quota
  else if strIncludes (errMessageOrDefault e) "JSON" then .parse
  else .generic

/-- The test of App.tsx line 125:
`err.name === 'AbortError' || err.message === 'Aborted'`. -/
def isAbortPayload (e : ErrPayload) : Bool :=
  e.name = some "AbortError" || e.message = some "Aborted"

/-! ## Controller state (the `useState` hooks of App.tsx) -/

inductive Tab
  | chat
  | sim
  | code
  deriving DecidableEq

/-- The mutable session state of the `App` component.  The
`AbortController` held in `abortControllerRef` is embedded as a token
(a generation number); `nextToken` mints fresh tokens. -/
structure AppState where
  isProcessing : Bool
  cncData : Option CNCOutput
  messages : List ChatMessage
  operations : List OperationParams
  currentStock : StockDimensions
  abortRef : Option Nat
  activeTab : Tab
  nextToken : Nat
  deriving DecidableEq

/-- The initial stock of the session (App.tsx lines 19-26). -/
def defaultStock : StockDimensions :=
  { shape := .RECTANGULAR
    width := 100
    length := 100
    height := 20
    diameter := 0
    material := "Aluminum" }

def initialState : AppState :=
  { isProcessing := false
    cncData := none
    messages := []
    operations := []
    currentStock := defaultStock
    abortRef := none
    activeTab := .chat
    nextToken := 0 }

/-- `handleReset` (App.tsx lines 30-35): clears operations, compiled
output, the transcript, and returns to the chat tab.  No other state
hook is written. -/
def handleReset (s : AppState) : AppState :=
  { s with
    operations := []
    cncData := none
    messages := []
    activeTab := .chat }

/-- `handleStopGeneration` (App.tsx lines 37-50): aborts and drops the
current controller when one is held, stops processing, and appends the
stop message.  `msgId` stands for `Date.now().toString()`. -/
def handleStopGeneration (msgId : String) (s : AppState) : AppState :=
  { s with
    abortRef := none
    isProcessing := false
    messages := s.messages ++
      [{ id := msgId, role := .ai, text := "🛑 已停止生成。",
         attachment := none, cncResult := none }] }

/-- The user message built at turn start (App.tsx lines 61-66). -/
def userMessage (msgId text : String) (attachment : Option Attachment) : ChatMessage :=
  { id := msgId
    role := .user
    text :=
      if text ≠ "" then text
      else match attachment with
        | some a => "已上传文件: " ++ a.fileName
        | none => "..."
    attachment := attachment.map (·.data)
    cncResult := none }

/-- The part of `handleSendMessage` before the `await` (App.tsx lines
58-71): start processing, append the user message, mint a fresh
controller and record it as current.  Returns the new state together
with the token carried by the issued analysis call. -/
def sendStart (msgId text : String) (attachment : Option Attachment)
    (s : AppState) : AppState × Nat :=
  let token := s.nextToken
  ({ s with
      isProcessing := true
      messages := s.messages ++ [userMessage msgId text attachment]
      abortRef := some token
      nextToken := token + 1 },
    token)

/-- How the analysis call resolves: a successful result or a thrown
failure payload. -/
inductive AnalysisOutcome
  | success (a : AnalysisResult)
  | failure (e : ErrPayload)
  deriving DecidableEq

/-! ## Program compiler

Modelled from the spec: the module `services/cncGenerator`
(`generateSiemensCode`) is referenced by `src/App.tsx` but its source is
not part of the repository snapshot; the definitions in this section
follow the contract of spec sections 4.2 and 8 (pure total function,
safe-Z retract, tool-change dedup, drill pecking, pocket layering with
the no-gouge bound, raster facing, contour translation, fixed-precision
formatting). -/

/-- Fixed-precision numeric formatting: the coordinate scaled to the
documented three decimals, emitted as an integer number of thousandths. -/
def fmtQ (q : ℚ) : String :=
  toString (round (q * 1000) : ℤ)

/-- Safe retract height: strictly above both the operation start plane
and the stock top. -/
def safeZ (stock : StockDimensions) (op : OperationParams) : ℚ :=
  max (op.z_start + 5) (stock.height + 5)

/-- One pecking descent step: clamp the next depth at the target. -/
def peckLoop (z_depth step : ℚ) : Nat → ℚ → List ℚ
  | 0, _ => []
  | Nat.succ fuel, z =>
    if z ≤ z_depth then []
    else max (z - step) z_depth :: peckLoop z_depth step fuel (max (z - step) z_depth)

/-- Enough iterations to reach the target depth. -/
def peckFuel (z_start z_depth step : ℚ) : Nat :=
  (⌈(z_start - z_depth) / step⌉).toNat + 1

/-- The successive peck depths of a drill cycle with a positive
step-down. -/
def drillPecks (z_start z_depth step : ℚ) : List ℚ :=
  peckLoop z_depth step (peckFuel z_start z_depth step) z_start

/-- Per-pass depths: pecks of `step_down` when it is positive, a single
plunge to the target depth otherwise. -/
def passZs (z_start z_depth step : ℚ) : List ℚ :=
  if 0 < step then drillPecks z_start z_depth step else [z_depth]

/-- Depths visited by a drill operation. -/
def drillPassZs (op : OperationParams) : List ℚ :=
  passZs op.z_start op.z_depth op.step_down

/-- The drill block: rapid to the hole at safe Z, then each peck depth
followed by a chip-clearance retract. -/
def drillBlock (stock : StockDimensions) (op : OperationParams) : List String :=
  ("G0 X" ++ fmtQ op.x ++ " Y" ++ fmtQ op.y ++ " Z" ++ fmtQ (safeZ stock op)) ::
    (drillPassZs op).flatMap (fun z =>
      ["G1 Z" ++ fmtQ z ++ " F" ++ fmtQ op.feed_rate,
       "G0 Z" ++ fmtQ (min (z + 2) (safeZ stock op))])

/-- Growing concentric offsets, clamped at the outermost allowed
radius, which is always emitted last. -/
def radiiLoop (maxR step : ℚ) : Nat → ℚ → List ℚ
  | 0, _ => []
  | Nat.succ fuel, r =>
    if maxR ≤ r then [maxR]
    else r :: radiiLoop maxR step fuel (min (r + step) maxR)

/-- The concentric radii of one circular-pocket layer: from one
stepover out to `maxR`, never beyond. -/
def circPocketRadii (maxR step : ℚ) : List ℚ :=
  if maxR ≤ 0 then []
  else radiiLoop maxR step ((⌈maxR / step⌉).toNat + 1) (min step maxR)

/-- The no-gouge bound of a circular pocket:
`diameter/2 - tool_diameter/2`. -/
def circMaxR (op : OperationParams) : ℚ :=
  (op.diameter.getD 0 - op.tool_diameter) / 2

/-- Lateral stepover derived from the tool. -/
def stepover (op : OperationParams) : ℚ :=
  op.tool_diameter / 2

/-- Every XY coordinate emitted for one layer of a circular pocket: the
plunge point at the center, then the start point of each concentric
circle. -/
def circPocketXY (op : OperationParams) : List (ℚ × ℚ) :=
  (op.x, op.y) ::
    (circPocketRadii (circMaxR op) (stepover op)).map (fun r => (op.x + r, op.y))

/-- The Z layers of a pocket operation (same clamped stepping as drill
pecks; a single layer when step-down is zero). -/
def pocketLayerZs (op : OperationParams) : List ℚ :=
  passZs op.z_start op.z_depth op.step_down

/-- One circular-pocket layer as text: plunge at center, then full
circles of growing radius. -/
def circLayerLines (op : OperationParams) (z : ℚ) : List String :=
  ("G1 X" ++ fmtQ op.x ++ " Y" ++ fmtQ op.y ++ " Z" ++ fmtQ z) ::
    (circPocketRadii (circMaxR op) (stepover op)).map (fun r =>
      "G3 X" ++ fmtQ (op.x + r) ++ " Y" ++ fmtQ op.y ++ " I" ++ fmtQ (-r) ++ " J0")

def circBlock (stock : StockDimensions) (op : OperationParams) : List String :=
  ("G0 X" ++ fmtQ op.x ++ " Y" ++ fmtQ op.y ++ " Z" ++ fmtQ (safeZ stock op)) ::
    (pocketLayerZs op).flatMap (circLayerLines op)

/-- Clamped rectangular half-extents of a rectangular pocket. -/
def rectHalfX (op : OperationParams) : ℚ := (op.width.getD 0 - op.tool_diameter) / 2

def rectHalfY (op : OperationParams) : ℚ := (op.length.getD 0 - op.tool_diameter) / 2

/-- One rectangular-pocket layer: plunge at center, then inward-offset
rectangles bounded by the clamped half-extents. -/
def rectLayerLines (op : OperationParams) (z : ℚ) : List String :=
  ("G1 X" ++ fmtQ op.x ++ " Y" ++ fmtQ op.y ++ " Z" ++ fmtQ z) ::
    (circPocketRadii (min (rectHalfX op) (rectHalfY op)) (stepover op)).flatMap (fun r =>
      let hx := min r (rectHalfX op)
      let hy := min r (rectHalfY op)
      ["G1 X" ++ fmtQ (op.x - hx) ++ " Y" ++ fmtQ (op.y - hy),
       "G1 X" ++ fmtQ (op.x + hx) ++ " Y" ++ fmtQ (op.y - hy),
       "G1 X" ++ fmtQ (op.x + hx) ++ " Y" ++ fmtQ (op.y + hy),
       "G1 X" ++ fmtQ (op.x - hx) ++ " Y" ++ fmtQ (op.y + hy),
       "G1 X" ++ fmtQ (op.x - hx) ++ " Y" ++ fmtQ (op.y - hy)])

def rectBlock (stock : StockDimensions) (op : OperationParams) : List String :=
  ("G0 X" ++ fmtQ op.x ++ " Y" ++ fmtQ op.y ++ " Z" ++ fmtQ (safeZ stock op)) ::
    (pocketLayerZs op).flatMap (rectLayerLines op)

/-- Raster rows of a face-mill pass across the stock footprint with a
fixed overlap fraction of the tool. -/
def faceRows (stock : StockDimensions) (op : OperationParams) : List ℚ :=
  circPocketRadii stock.length (op.tool_diameter * (7 / 10))

def faceBlock (stock : StockDimensions) (op : OperationParams) : List String :=
  ("G0 X0 Y0 Z" ++ fmtQ (safeZ stock op)) ::
    ("G1 Z" ++ fmtQ op.z_depth ++ " F" ++ fmtQ op.feed_rate) ::
    (faceRows stock op).flatMap (fun y =>
      ["G1 Y" ++ fmtQ y, "G1 X" ++ fmtQ stock.width, "G1 X0"])

/-- One contour segment as a motion line; arc direction follows the
segment tag, with center offsets when given and a radius fallback
otherwise. -/
def segmentLine (op : OperationParams) (seg : PathSegment) : String :=
  match seg.type with
  | .LINE => "G1 X" ++ fmtQ seg.x ++ " Y" ++ fmtQ seg.y
  | .ARC_CW =>
    "G2 X" ++ fmtQ seg.x ++ " Y" ++ fmtQ seg.y ++
      (match seg.cx, seg.cy with
       | some cx, some cy => " I" ++ fmtQ (cx - op.x) ++ " J" ++ fmtQ (cy - op.y)
       | _, _ => " CR=" ++ fmtQ (seg.radius.getD 0))
  | .ARC_CCW =>
    "G3 X" ++ fmtQ seg.x ++ " Y" ++ fmtQ seg.y ++
      (match seg.cx, seg.cy with
       | some cx, some cy => " I" ++ fmtQ (cx - op.x) ++ " J" ++ fmtQ (cy - op.y)
       | _, _ => " CR=" ++ fmtQ (seg.radius.getD 0))

def contourBlock (stock : StockDimensions) (op : OperationParams) : List String :=
  ("G0 X" ++ fmtQ op.x ++ " Y" ++ fmtQ op.y ++ " Z" ++ fmtQ (safeZ stock op)) ::
    ("G1 Z" ++ fmtQ op.z_depth ++ " F" ++ fmtQ op.feed_rate) ::
    ((op.path_segments.getD []).map (segmentLine op) ++
      ["G0 Z" ++ fmtQ (safeZ stock op)])

/-- A degenerate but well-formed block for an unknown operation: the
documented soft-failure default. -/
def unknownBlock (stock : StockDimensions) (op : OperationParams) : List String :=
  ["G0 Z" ++ fmtQ (safeZ stock op)]

/-- Tool-change and spindle lines, suppressed when tool and spindle are
unchanged from the previous operation. -/
def toolChangeLines (prev : Option OperationParams) (op : OperationParams) : List String :=
  match prev with
  | none => ["T=" ++ fmtQ op.tool_diameter, "S" ++ fmtQ op.spindle_speed ++ " M3"]
  | some p =>
    if p.tool_type = op.tool_type ∧ p.spindle_speed = op.spindle_speed then []
    else ["T=" ++ fmtQ op.tool_diameter, "S" ++ fmtQ op.spindle_speed ++ " M3"]

/-- One operation block, dispatched on the operation tag. -/
def opBlock (stock : StockDimensions) (prev : Option OperationParams)
    (op : OperationParams) : String :=
  String.intercalate "\n"
    (toolChangeLines prev op ++
      match op.type with
      | .DRILL => drillBlock stock op
      | .CIRCULAR_POCKET => circBlock stock op
      | .RECTANGULAR_POCKET => rectBlock stock op
      | .FACE_MILL => faceBlock stock op
      | .CONTOUR => contourBlock stock op
      | .UNKNOWN => unknownBlock stock op)

/-- One block per ledger operation, in ledger order, each paired with
its predecessor for the dedup rule. -/
def gcodeBlocks (stock : StockDimensions) (ops : List OperationParams) : List String :=
  (List.zip (none :: ops.map some) ops).map (fun pr => opBlock stock pr.1 pr.2)

def programHeader : String := "G54 G71 G90\n"

/-- `generateSiemensCode`: header, then the operation blocks in ledger
order, echoing the exact inputs in the output value. -/
def generateSiemensCode (stock : StockDimensions) (ops : List OperationParams)
    (explanation : String) : CNCOutput :=
  { gcode := programHeader ++ String.intercalate "\n" (gcodeBlocks stock ops) ++ "\nM30"
    explanation := explanation
    operations := ops
    stock := stock }

/-! ## Turn resolution (App.tsx lines 86-153) -/

/-- The accumulate branch of a successful turn (App.tsx lines 98-104):
append the new operation, compile the entire accumulated list. -/
def accumResult (a : AnalysisResult) (s : AppState) :
    List OperationParams × CNCOutput :=
  (s.operations ++ [a.operation],
   generateSiemensCode a.stock (s.operations ++ [a.operation]) a.explanation)

/-- The ledger update and output of a successful turn (App.tsx lines
86-104): the wholesale-replace branch fires only in OPTIMIZE mode with a
truthy (present, nonempty) `optimized_gcode`; every other successful
turn accumulates. -/
def successOpsResult (mode : AppMode) (a : AnalysisResult) (s : AppState) :
    List OperationParams × CNCOutput :=
  match mode with
  | .OPTIMIZE =>
    match a.optimized_gcode with
    | some g =>
      if g = "" then accumResult a s
      else
        ([a.operation],
         { gcode := g, explanation := a.explanation,
           operations := [a.operation], stock := a.stock })
    | none => accumResult a s
  | .GENERATE => accumResult a s

/-- The commit of a successful resolution (App.tsx lines 86-121):
store the new ledger and stock, publish the output, switch to the
simulation tab on mobile, append the AI message. -/
def commitSuccess (mobile : Bool) (msgId : String) (mode : AppMode)
    (a : AnalysisResult) (s : AppState) : AppState :=
  let pr := successOpsResult mode a s
  { s with
    operations := pr.1
    currentStock := a.stock
    cncData := some pr.2
    activeTab := if mobile then .sim else s.activeTab
    messages := s.messages ++
      [{ id := msgId, role := .ai, text := pr.2.explanation,
         attachment := none, cncResult := some pr.2 }] }

/-- The `finally` block (App.tsx lines 147-153): only when the resolving
call still holds the current controller are the processing flag and the
reference cleared. -/
def finallyStep (token : Nat) (s : AppState) : AppState :=
  if s.abortRef = some token then { s with isProcessing := false, abortRef := none }
  else s

/-- Resolution of the analysis call (App.tsx lines 86-153): a success is
committed; an abort payload returns early; any other failure appends the
classified error message; the `finally` block always runs. -/
def resolveTurn (mobile : Bool) (msgId : String) (mode : AppMode) (token : Nat)
    (outcome : AnalysisOutcome) (s : AppState) : AppState :=
  finallyStep token <|
    match outcome with
    | .success a => commitSuccess mobile msgId mode a s
    | .failure e =>
      if isAbortPayload e then s
      else
        { s with messages := s.messages ++
            [{ id := msgId, role := .ai, text := classifyError e,
               attachment := none, cncResult := none }] }

/-- One complete successful GENERATE turn: start, then resolution of the
call carrying the minted token. -/
def runTurn (a : AnalysisResult) (s : AppState) : AppState :=
  let p := sendStart "u" "turn" none s
  resolveTurn false "a" .GENERATE p.2 (.success a) p.1

/-- A session of successful GENERATE turns applied in order. -/
def runTurns (results : List AnalysisResult) (s : AppState) : AppState :=
  results.foldl (fun t a => runTurn a t) s

/-! ## Concrete example values -/

def exOp : OperationParams :=
  { type := .DRILL
    x := 10
    y := 20
    z_start := 0
    z_depth := -10
    diameter := some 8
    width := none
    length := none
    path_segments := none
    feed_rate := 100
    spindle_speed := 3000
    tool_diameter := 8
    tool_type := .DRILL
    step_down := 3 }

def exOp2 : OperationParams :=
  { exOp with
    type := .CIRCULAR_POCKET
    x := 30
    diameter := some 40
    tool_diameter := 6
    tool_type := .END_MILL
    z_depth := -5
    step_down := 2 }

def exA : AnalysisResult :=
  { operation := exOp
    stock := { defaultStock with material := "Steel" }
    explanation := "drill"
    optimized_gcode := none }

def exA2 : AnalysisResult :=
  { exA with operation := exOp2, explanation := "pocket" }

/-- The state after a turn was started and then stopped by the user:
the minted token 0 is no longer current. -/
def stoppedState : AppState :=
  handleStopGeneration "s1" (sendStart "u1" "mill" none initialState).1

def twoOpState : AppState :=
  { initialState with operations := [exOp, exOp2], abortRef := some 5, isProcessing := true }

def abortedPayload : ErrPayload :=
  { name := some "AbortError", message := none, serialized := "\x7b\x7d" }

def payload429 : ErrPayload :=
  { name := none, message := none, serialized := "\x7b\"code\":429\x7d" }

def jsonStringPayload : ErrPayload :=
  { name := none, message := none,
    serialized := "\"Unexpected token in JSON at position 4\"" }

def networkPayload : ErrPayload :=
  { name := some "Error", message := some "network down", serialized := "\x7b\x7d" }

/-! ## Helper lemmas: the finally block touches no ledger state -/

lemma finallyStep_operations (token : Nat) (s : AppState) :
    (finallyStep token s).operations = s.operations := by
  unfold finallyStep; split <;> rfl

lemma finallyStep_currentStock (token : Nat) (s : AppState) :
    (finallyStep token s).currentStock = s.currentStock := by
  unfold finallyStep; split <;> rfl

lemma finallyStep_cncData (token : Nat) (s : AppState) :
    (finallyStep token s).cncData = s.cncData := by
  unfold finallyStep; split <;> rfl

lemma finallyStep_messages (token : Nat) (s : AppState) :
    (finallyStep token s).messages = s.messages := by
  unfold finallyStep; split <;> rfl

/-! ## Helper lemmas: pecking -/

lemma peckLoop_stop (z_depth step z : ℚ) (fuel : Nat) (h : z ≤ z_depth) :
    peckLoop z_depth step fuel z = [] := by
  cases fuel with
  | zero => rfl
  | succ n => simp [peckLoop, h]

lemma peckLoop_mem (z_depth step : ℚ) :
    ∀ (fuel : Nat) (z : ℚ), ∀ w ∈ peckLoop z_depth step fuel z, z_depth ≤ w := by
  intro fuel
  induction fuel with
  | zero => intro z w hw; simp [peckLoop] at hw
  | succ n ih =>
    intro z w hw
    by_cases h : z ≤ z_depth
    · simp [peckLoop, h] at hw
    · simp only [peckLoop, if_neg h, List.mem_cons] at hw
      rcases hw with rfl | hw
      · exact le_max_right _ _
      · exact ih _ w hw

lemma peckLoop_chain (z_depth step : ℚ) :
    ∀ (fuel : Nat) (z : ℚ),
      List.Chain (fun a b => b = max (a - step) z_depth) z (peckLoop z_depth step fuel z) := by
  intro fuel
  induction fuel with
  | zero => intro z; exact List.Chain.nil
  | succ n ih =>
    intro z
    by_cases h : z ≤ z_depth
    · rw [peckLoop_stop _ _ _ _ h]; exact List.Chain.nil
    · simp only [peckLoop, if_neg h]
      exact List.Chain.cons rfl (ih _)

lemma peckLoop_getLast (z_depth step : ℚ) (_hstep : 0 < step) :
    ∀ (fuel : Nat) (z : ℚ), z_depth < z → z - z_depth ≤ (fuel : ℚ) * step →
      (peckLoop z_depth step fuel z).getLast? = some z_depth := by
  intro fuel
  induction fuel with
  | zero =>
    intro z h1 h2
    exfalso
    simp only [Nat.cast_zero, zero_mul] at h2
    linarith
  | succ n ih =>
    intro z h1 h2
    have hz : ¬ z ≤ z_depth := not_le.mpr h1
    simp only [peckLoop, if_neg hz]
    by_cases hc : z - step ≤ z_depth
    · rw [max_eq_right hc, peckLoop_stop _ _ _ _ le_rfl]
      rfl
    · have hlt : z_depth < z - step := lt_of_not_le hc
      rw [max_eq_left hlt.le]
      have h2' : (z - step) - z_depth ≤ (n : ℚ) * step := by
        push_cast at h2
        linarith
      have htail := ih (z - step) hlt h2'
      cases hl : peckLoop z_depth step n (z - step) with
      | nil => rw [hl] at htail; simp at htail
      | cons b t =>
        rw [hl] at htail
        rw [List.getLast?_cons_cons]
        exact htail

lemma peckLoop_length (z_depth step : ℚ) (hstep : 0 < step) :
    ∀ (fuel : Nat) (z : ℚ), z_depth < z → z - z_depth ≤ (fuel : ℚ) * step →
      (peckLoop z_depth step fuel z).length = (⌈(z - z_depth) / step⌉).toNat := by
  intro fuel
  induction fuel with
  | zero =>
    intro z h1 h2
    exfalso
    simp only [Nat.cast_zero, zero_mul] at h2
    linarith
  | succ n ih =>
    intro z h1 h2
    have hz : ¬ z ≤ z_depth := not_le.mpr h1
    simp only [peckLoop, if_neg hz]
    by_cases hc : z - step ≤ z_depth
    · rw [max_eq_right hc, peckLoop_stop _ _ _ _ le_rfl]
      have hceil : ⌈(z - z_depth) / step⌉ = 1 := by
        rw [Int.ceil_eq_iff]
        constructor
        · have h0 : (0:ℚ) < (z - z_depth) / step := div_pos (by linarith) hstep
          push_cast
          linarith
        · push_cast
          rw [div_le_one hstep]
          linarith
      simp [hceil]
    · have hlt : z_depth < z - step := lt_of_not_le hc
      rw [max_eq_left hlt.le]
      have h2' : (z - step) - z_depth ≤ (n : ℚ) * step := by
        push_cast at h2
        linarith
      have htail := ih (z - step) hlt h2'
      have hshift : (z - step - z_depth) / step = (z - z_depth) / step - 1 := by
        field_simp
        ring
      have hceil : ⌈(z - step - z_depth) / step⌉ = ⌈(z - z_depth) / step⌉ - 1 := by
        rw [hshift, Int.ceil_sub_one]
      have hpos : 0 < ⌈(z - z_depth) / step⌉ :=
        Int.ceil_pos.mpr (div_pos (by linarith) hstep)
      simp only [List.length_cons, htail, hceil]
      omega

lemma le_peckFuel_mul (z_start z_depth step : ℚ) (hstep : 0 < step) (hz : z_depth < z_start) :
    z_start - z_depth ≤ (peckFuel z_start z_depth step : ℚ) * step := by
  have hd : 0 < z_start - z_depth := by linarith
  have hle := Int.le_ceil ((z_start - z_depth) / step)
  have hcpos : 0 < ⌈(z_start - z_depth) / step⌉ := Int.ceil_pos.mpr (div_pos hd hstep)
  have h1 : (⌈(z_start - z_depth) / step⌉.toNat : ℤ) = ⌈(z_start - z_depth) / step⌉ :=
    Int.toNat_of_nonneg hcpos.le
  have hfz : (peckFuel z_start z_depth step : ℤ) = ⌈(z_start - z_depth) / step⌉ + 1 := by
    unfold peckFuel
    push_cast
    omega
  have hcast : ((peckFuel z_start z_depth step : ℕ) : ℚ)
      = (⌈(z_start - z_depth) / step⌉ : ℚ) + 1 := by
    exact_mod_cast hfz
  rw [hcast]
  have hmul : z_start - z_depth ≤ (⌈(z_start - z_depth) / step⌉ : ℚ) * step := by
    rw [← div_le_iff₀ hstep]
    exact hle
  nlinarith

lemma drillPecks_mem (z_start z_depth step : ℚ) :
    ∀ w ∈ drillPecks z_start z_depth step, z_depth ≤ w :=
  peckLoop_mem z_depth step _ z_start

lemma drillPecks_chain (z_start z_depth step : ℚ) :
    List.Chain (fun a b => b = max (a - step) z_depth) z_start
      (drillPecks z_start z_depth step) :=
  peckLoop_chain z_depth step _ z_start

lemma drillPecks_getLast (z_start z_depth step : ℚ) (hstep : 0 < step)
    (hz : z_depth < z_start) :
    (drillPecks z_start z_depth step).getLast? = some z_depth :=
  peckLoop_getLast z_depth step hstep _ z_start hz
    (le_peckFuel_mul z_start z_depth step hstep hz)

lemma drillPecks_length (z_start z_depth step : ℚ) (hstep : 0 < step)
    (hz : z_depth < z_start) :
    (drillPecks z_start z_depth step).length = (⌈(z_start - z_depth) / step⌉).toNat :=
  peckLoop_length z_depth step hstep _ z_start hz
    (le_peckFuel_mul z_start z_depth step hstep hz)

/-! ## Helper lemmas: pocket radii -/

lemma radiiLoop_mem (maxR step : ℚ) (hstep : 0 ≤ step) :
    ∀ (fuel : Nat) (r : ℚ), 0 ≤ r → r ≤ maxR →
      ∀ w ∈ radiiLoop maxR step fuel r, 0 ≤ w ∧ w ≤ maxR := by
  intro fuel
  induction fuel with
  | zero => intro r _ _ w hw; simp [radiiLoop] at hw
  | succ n ih =>
    intro r hr0 hrm w hw
    by_cases h : maxR ≤ r
    · simp only [radiiLoop, if_pos h, List.mem_singleton] at hw
      subst hw
      exact ⟨le_trans hr0 hrm, le_rfl⟩
    · simp only [radiiLoop, if_neg h, List.mem_cons] at hw
      rcases hw with rfl | hw
      · exact ⟨hr0, hrm⟩
      · exact ih (min (r + step) maxR)
          (le_min (by linarith) (le_trans hr0 hrm))
          (min_le_right _ _) w hw

lemma circPocketRadii_mem (maxR step : ℚ) (hstep : 0 ≤ step) :
    ∀ w ∈ circPocketRadii maxR step, 0 ≤ w ∧ w ≤ maxR := by
  intro w hw
  unfold circPocketRadii at hw
  split at hw
  · simp at hw
  · next h =>
    exact radiiLoop_mem maxR step hstep _ (min step maxR)
      (le_min hstep (le_of_lt (lt_of_not_le h)))
      (min_le_right _ _) w hw

/-! ## Helper lemmas: successful GENERATE turns -/

lemma runTurn_state (a : AnalysisResult) (s : AppState) :
    (runTurn a s).operations = s.operations ++ [a.operation] ∧
    (runTurn a s).currentStock = a.stock ∧
    (runTurn a s).cncData =
      some (generateSiemensCode a.stock (s.operations ++ [a.operation]) a.explanation) := by
  refine ⟨?_, ?_, ?_⟩ <;>
    simp [runTurn, sendStart, resolveTurn, commitSuccess, successOpsResult, accumResult,
      finallyStep]

lemma runTurns_operations :
    ∀ (rs : List AnalysisResult) (s : AppState),
      (runTurns rs s).operations = s.operations ++ rs.map (·.operation) := by
  intro rs
  induction rs with
  | nil => intro s; simp [runTurns]
  | cons a t ih =>
    intro s
    have hstep : runTurns (a :: t) s = runTurns t (runTurn a s) := by
      simp [runTurns]
    rw [hstep, ih, (runTurn_state a s).1]
    simp

lemma generateSiemensCode_operations (st : StockDimensions) (ops : List OperationParams)
    (e : String) : (generateSiemensCode st ops e).operations = ops := rfl

lemma gcodeBlocks_length (st : StockDimensions) (ops : List OperationParams) :
    (gcodeBlocks st ops).length = ops.length := by
  simp [gcodeBlocks]

lemma runTurns_cncData :
    ∀ (rs : List AnalysisResult) (s : AppState), rs ≠ [] →
      ∃ out, (runTurns rs s).cncData = some out ∧
        out.operations = s.operations ++ rs.map (·.operation) := by
  intro rs
  induction rs with
  | nil => intro s h; exact absurd rfl h
  | cons a t ih =>
    intro s _
    have hstep : runTurns (a :: t) s = runTurns t (runTurn a s) := by
      simp [runTurns]
    by_cases ht : t = []
    · subst ht
      refine ⟨generateSiemensCode a.stock (s.operations ++ [a.operation]) a.explanation, ?_, ?_⟩
      · rw [hstep]
        simpa [runTurns] using (runTurn_state a s).2.2
      · simp [generateSiemensCode_operations]
    · obtain ⟨out, h1, h2⟩ := ih (runTurn a s) ht
      refine ⟨out, ?_, ?_⟩
      · rw [hstep]; exact h1
      · rw [h2, (runTurn_state a s).1]
        simp

/-! ## Claim theorems -/

/-- C1 counterexample: a turn is started, the user stops it (the minted
token 0 is no longer current), and the analysis call then resolves
successfully.  The controller still commits: the operations list and
the compiled output are mutated by the stale resolution, contradicting
the claim that no Ledger or output commit occurs. -/
theorem c1_counterexample :
    ¬ ((resolveTurn false "a1" .GENERATE 0 (.success exA) stoppedState).operations
          = stoppedState.operations ∧
       (resolveTurn false "a1" .GENERATE 0 (.success exA) stoppedState).currentStock
          = stoppedState.currentStock ∧
       (resolveTurn false "a1" .GENERATE 0 (.success exA) stoppedState).cncData
          = stoppedState.cncData) := by
  intro h
  have h1 := h.1
  simp [resolveTurn, commitSuccess, successOpsResult, accumResult, finallyStep,
    stoppedState, handleStopGeneration, sendStart, initialState, exA] at h1

/-- C1 (amended): the discard applies only to a cancelled call that
resolves with the abort outcome: such a stale resolution leaves the
whole state untouched (the catch clause returns early, and the stale
token also skips the cleanup of the finally block).  A cancelled call
that resolves successfully is still committed, as `c1_counterexample`
shows. -/
theorem c1_stale_abort_discarded (mobile : Bool) (msgId : String) (mode : AppMode)
    (token : Nat) (e : ErrPayload) (s : AppState)
    (hstale : s.abortRef ≠ some token) (habort : isAbortPayload e = true) :
    resolveTurn mobile msgId mode token (.failure e) s = s := by
  simp [resolveTurn, habort, finallyStep, hstale]

/-- Witness for C1: the stopped state holds no current token, the abort
payload is recognised, and the stale abort resolution is the identity. -/
theorem c1_witness :
    stoppedState.abortRef ≠ some 0 ∧ isAbortPayload abortedPayload = true ∧
    resolveTurn false "x" .GENERATE 0 (.failure abortedPayload) stoppedState
      = stoppedState :=
  ⟨by simp [stoppedState, handleStopGeneration], by decide,
   c1_stale_abort_discarded false "x" .GENERATE 0 abortedPayload stoppedState
     (by simp [stoppedState, handleStopGeneration]) (by decide)⟩

/-- C2 counterexample: a successfully completed OPTIMIZE turn whose
analysis result carries no ready-made program text leaves the Ledger
with three operations, not a singleton. -/
theorem c2_counterexample :
    ¬ ((resolveTurn false "a2" .OPTIMIZE 5 (.success exA) twoOpState).operations.length
        = 1) := by
  intro h
  simp [resolveTurn, commitSuccess, successOpsResult, accumResult, finallyStep,
    twoOpState, initialState, exA] at h

/-- C2 (amended): in OPTIMIZE mode the Ledger becomes the singleton of
the newly analyzed operation exactly when the Analyzer supplied
nonempty ready-made program text, which is then used verbatim; with no
(or empty) supplied text the turn accumulates instead. -/
theorem c2_replace_semantics (mobile : Bool) (msgId : String) (token : Nat)
    (a : AnalysisResult) (s : AppState) :
    (∀ g, a.optimized_gcode = some g → g ≠ "" →
      (resolveTurn mobile msgId .OPTIMIZE token (.success a) s).operations
          = [a.operation] ∧
      (resolveTurn mobile msgId .OPTIMIZE token (.success a) s).cncData
          = some { gcode := g, explanation := a.explanation,
                   operations := [a.operation], stock := a.stock }) ∧
    (a.optimized_gcode = none →
      (resolveTurn mobile msgId .OPTIMIZE token (.success a) s).operations
          = s.operations ++ [a.operation]) ∧
    (a.optimized_gcode = some "" →
      (resolveTurn mobile msgId .OPTIMIZE token (.success a) s).operations
          = s.operations ++ [a.operation]) := by
  refine ⟨fun g hg hne => ⟨?_, ?_⟩, fun hg => ?_, fun hg => ?_⟩
  · simp [resolveTurn, finallyStep_operations, commitSuccess, successOpsResult,
      accumResult, hg, hne]
  · simp [resolveTurn, finallyStep_cncData, commitSuccess, successOpsResult,
      accumResult, hg, hne]
  · simp [resolveTurn, finallyStep_operations, commitSuccess, successOpsResult,
      accumResult, hg]
  · simp [resolveTurn, finallyStep_operations, commitSuccess, successOpsResult,
      accumResult, hg]

/-- Witness for C2: a concrete OPTIMIZE turn with supplied program text
replaces a two-operation Ledger by a singleton. -/
theorem c2_witness :
    ({ exA with optimized_gcode := some "G0 X0" } : AnalysisResult).optimized_gcode
        = some "G0 X0" ∧
    ("G0 X0" : String) ≠ "" ∧
    (resolveTurn false "a2" .OPTIMIZE 5
        (.success { exA with optimized_gcode := some "G0 X0" }) twoOpState).operations
      = [exA.operation] :=
  ⟨rfl, by decide,
   ((c2_replace_semantics false "a2" 5 { exA with optimized_gcode := some "G0 X0" }
      twoOpState).1 "G0 X0" rfl (by decide)).1⟩

/-- C3 counterexample: resetting a session whose stock differs from the
default does not restore the stock: `handleReset` writes no stock state,
so the claim that reset restores the caller-supplied default fails. -/
theorem c3_counterexample :
    ¬ ((handleReset { initialState with
          currentStock := { defaultStock with width := 55 } }).operations = [] ∧
       (handleReset { initialState with
          currentStock := { defaultStock with width := 55 } }).currentStock
         = defaultStock ∧
       (handleReset { initialState with
          currentStock := { defaultStock with width := 55 } }).cncData = none) := by
  intro h
  have h2 := h.2.1
  simp [handleReset, defaultStock, initialState] at h2

/-- C3 (amended): reset simultaneously empties the operations list,
clears the compiled output, clears the transcript and returns to the
chat tab, in one step; the stock is left unchanged, not restored to a
default. -/
theorem c3_reset (s : AppState) :
    (handleReset s).operations = [] ∧
    (handleReset s).cncData = none ∧
    (handleReset s).messages = [] ∧
    (handleReset s).activeTab = .chat ∧
    (handleReset s).currentStock = s.currentStock ∧
    (handleReset s).isProcessing = s.isProcessing :=
  ⟨rfl, rfl, rfl, rfl, rfl, rfl⟩

/-- C4 counterexample: the failure payload that is the plain string
"Unexpected token in JSON at position 4" has serialized content
containing "JSON", yet the turn surfaces the generic failure message,
not the parse-failure message: the JSON test reads `err.message`, which
a string payload does not have. -/
theorem c4_counterexample :
    (resolveTurn false "e1" .GENERATE 0 (.failure jsonStringPayload) initialState).messages
      ≠ initialState.messages ++
        [{ id := "e1", role := .ai, text := parseFailureText,
           attachment := none, cncResult := none }] := by
  decide

/-- C4 (amended): for a non-cancellation failure payload, the quota
message is surfaced when the serialized content contains "429" or
"quota" or the payload's own message contains "429"; otherwise the
parse-failure message is surfaced when the payload's message (or the
generic default text when the message is absent or empty) contains
"JSON"; otherwise the payload's message (or the generic default) itself
is surfaced.  In particular the object payload whose serialization is
\x7b"code":429\x7d maps to the quota branch, while the plain string
payload "Unexpected token in JSON at position 4" and the error payload
with message "network down" both map to the fallthrough branch. -/
theorem c4_failure_mapping (mobile : Bool) (msgId : String) (mode : AppMode)
    (token : Nat) (s : AppState) (e : ErrPayload)
    (hab : isAbortPayload e = false) :
    (isQuotaFailure e = true →
      (resolveTurn mobile msgId mode token (.failure e) s).messages
        = s.messages ++ [{ id := msgId, role := .ai, text := quotaFailureText,
                           attachment := none, cncResult := none }]) ∧
    (isQuotaFailure e = false → strIncludes (errMessageOrDefault e) "JSON" = true →
      (resolveTurn mobile msgId mode token (.failure e) s).messages
        = s.messages ++ [{ id := msgId, role := .ai, text := parseFailureText,
                           attachment := none, cncResult := none }]) ∧
    (isQuotaFailure e = false → strIncludes (errMessageOrDefault e) "JSON" = false →
      (resolveTurn mobile msgId mode token (.failure e) s).messages
        = s.messages ++ [{ id := msgId, role := .ai, text := errMessageOrDefault e,
                           attachment := none, cncResult := none }]) ∧
    errCategory payload429 = .quota ∧
    errCategory jsonStringPayload = .generic ∧
    errCategory networkPayload = .generic := by
  refine ⟨fun hq => ?_, fun hq hj => ?_, fun hq hj => ?_, by decide, by decide, by decide⟩
  · simp [resolveTurn, hab, finallyStep_messages, classifyError, hq]
  · simp [resolveTurn, hab, finallyStep_messages, classifyError, hq, hj]
  · simp [resolveTurn, hab, finallyStep_messages, classifyError, hq, hj]

/-- Witness for C4: the concrete 429 payload is not an abort payload,
satisfies the quota condition, and the resolved turn appends exactly
the quota message. -/
theorem c4_witness :
    isAbortPayload payload429 = false ∧
    isQuotaFailure payload429 = true ∧
    (resolveTurn false "e2" .GENERATE 0 (.failure payload429) initialState).messages
      = initialState.messages ++
        [{ id := "e2", role := .ai, text := quotaFailureText,
           attachment := none, cncResult := none }] :=
  ⟨by decide, by decide,
   (c4_failure_mapping false "e2" .GENERATE 0 initialState payload429 (by decide)).1
     (by decide)⟩

/-- C5: in accumulate (GENERATE) mode each successful turn appends the
newly analyzed operation to the existing ordered list, overwrites the
stock with the latest analysis value, and invokes the compiler on the
entire accumulated list; after a session of successful turns starting
from an empty Ledger, the Ledger holds exactly the submitted operations
in order and the compiled output carries one program block per
operation. -/
theorem c5_accumulate_mode (a : AnalysisResult) (s : AppState)
    (rs : List AnalysisResult) (s0 : AppState)
    (h0 : s0.operations = []) (hne : rs ≠ []) :
    (runTurn a s).operations = s.operations ++ [a.operation] ∧
    (runTurn a s).currentStock = a.stock ∧
    (runTurn a s).cncData =
      some (generateSiemensCode a.stock (s.operations ++ [a.operation]) a.explanation) ∧
    (runTurns rs s0).operations = rs.map (·.operation) ∧
    (runTurns rs s0).operations.length = rs.length ∧
    ∃ out, (runTurns rs s0).cncData = some out ∧
      out.operations = rs.map (·.operation) ∧
      (gcodeBlocks out.stock out.operations).length = rs.length := by
  obtain ⟨o1, o2, o3⟩ := runTurn_state a s
  have hops := runTurns_operations rs s0
  rw [h0, List.nil_append] at hops
  obtain ⟨out, hc1, hc2⟩ := runTurns_cncData rs s0 hne
  rw [h0, List.nil_append] at hc2
  refine ⟨o1, o2, o3, hops, by rw [hops]; simp, out, hc1, hc2, ?_⟩
  rw [hc2, gcodeBlocks_length]
  simp

/-- Witness for C5: a concrete two-turn GENERATE session from the
initial state accumulates both operations in submission order and
compiles two blocks. -/
theorem c5_witness :
    initialState.operations = [] ∧ ([exA, exA2] ≠ ([] : List AnalysisResult)) ∧
    ((runTurn exA initialState).operations
        = initialState.operations ++ [exA.operation] ∧
      (runTurn exA initialState).currentStock = exA.stock ∧
      (runTurn exA initialState).cncData =
        some (generateSiemensCode exA.stock
          (initialState.operations ++ [exA.operation]) exA.explanation) ∧
      (runTurns [exA, exA2] initialState).operations
        = [exA, exA2].map (·.operation) ∧
      (runTurns [exA, exA2] initialState).operations.length = [exA, exA2].length ∧
      ∃ out, (runTurns [exA, exA2] initialState).cncData = some out ∧
        out.operations = [exA, exA2].map (·.operation) ∧
        (gcodeBlocks out.stock out.operations).length = [exA, exA2].length) :=
  ⟨rfl, by simp,
   c5_accumulate_mode exA initialState [exA, exA2] initialState rfl (by simp)⟩

/-- C6: when the user cancels before the analysis call resolves, the
Ledger (operations and stock) is unchanged from before the turn, the
compiled output is unchanged, exactly one stop message is appended
after the turn-start user message, the controller is idle again, and
the subsequent abort resolution of the cancelled call changes nothing. -/
theorem c6_cancel_before_resolve (s0 : AppState) (uid text sid : String)
    (att : Option Attachment) (mobile : Bool) (mid : String) (mode : AppMode)
    (e : ErrPayload) (habort : isAbortPayload e = true) :
    (handleStopGeneration sid (sendStart uid text att s0).1).operations
        = s0.operations ∧
    (handleStopGeneration sid (sendStart uid text att s0).1).currentStock
        = s0.currentStock ∧
    (handleStopGeneration sid (sendStart uid text att s0).1).cncData = s0.cncData ∧
    (handleStopGeneration sid (sendStart uid text att s0).1).isProcessing = false ∧
    (handleStopGeneration sid (sendStart uid text att s0).1).messages
        = s0.messages ++ [userMessage uid text att,
            { id := sid, role := .ai, text := "🛑 已停止生成。",
              attachment := none, cncResult := none }] ∧
    resolveTurn mobile mid mode (sendStart uid text att s0).2 (.failure e)
        (handleStopGeneration sid (sendStart uid text att s0).1)
      = handleStopGeneration sid (sendStart uid text att s0).1 := by
  refine ⟨rfl, rfl, rfl, rfl, ?_, ?_⟩
  · simp [handleStopGeneration, sendStart]
  · simp [resolveTurn, habort, finallyStep, handleStopGeneration, sendStart]

/-- Witness for C6: a concrete started-then-stopped turn. -/
theorem c6_witness :
    isAbortPayload abortedPayload = true ∧
    (handleStopGeneration "s2" (sendStart "u2" "face" none initialState).1).operations
        = initialState.operations ∧
    (handleStopGeneration "s2" (sendStart "u2" "face" none initialState).1).isProcessing
        = false ∧
    resolveTurn true "m2" .OPTIMIZE (sendStart "u2" "face" none initialState).2
        (.failure abortedPayload)
        (handleStopGeneration "s2" (sendStart "u2" "face" none initialState).1)
      = handleStopGeneration "s2" (sendStart "u2" "face" none initialState).1 := by
  have h := c6_cancel_before_resolve initialState "u2" "face" "s2" none true "m2"
    .OPTIMIZE abortedPayload (by decide)
  exact ⟨by decide, h.1, h.2.2.2.1, h.2.2.2.2.2⟩

/-- C7: the program compiler is a pure, deterministic, total function:
it is defined for every input, and two calls on equal stock, equal
ordered operation lists and equal explanation text return equal outputs
and byte-identical program text. -/
theorem c7_compiler_deterministic (st1 st2 : StockDimensions)
    (ops1 ops2 : List OperationParams) (e1 e2 : String)
    (hs : st1 = st2) (ho : ops1 = ops2) (he : e1 = e2) :
    generateSiemensCode st1 ops1 e1 = generateSiemensCode st2 ops2 e2 ∧
    (generateSiemensCode st1 ops1 e1).gcode = (generateSiemensCode st2 ops2 e2).gcode := by
  subst hs
  subst ho
  subst he
  exact ⟨rfl, rfl⟩

/-- Witness for C7: two compilations of the same concrete job agree. -/
theorem c7_witness :
    defaultStock = defaultStock ∧ [exOp, exOp2] = [exOp, exOp2] ∧
    ("job" : String) = "job" ∧
    generateSiemensCode defaultStock [exOp, exOp2] "job"
      = generateSiemensCode defaultStock [exOp, exOp2] "job" ∧
    (generateSiemensCode defaultStock [exOp, exOp2] "job").gcode
      = (generateSiemensCode defaultStock [exOp, exOp2] "job").gcode :=
  ⟨rfl, rfl, rfl,
   (c7_compiler_deterministic defaultStock defaultStock [exOp, exOp2] [exOp, exOp2]
     "job" "job" rfl rfl rfl).1,
   (c7_compiler_deterministic defaultStock defaultStock [exOp, exOp2] [exOp, exOp2]
     "job" "job" rfl rfl rfl).2⟩

/-- C8: for a drill operation deeper than its start plane, a positive
step-down pecks in clamped increments of the step-down from the start
plane: the peck count is the ceiling of depth over step-down (no extra
peck), the final peck lands exactly on the target depth, no peck
overshoots below it, and consecutive pecks descend by exactly one
step-down clamped at the target; a zero step-down emits a single plunge
to the target depth. -/
theorem c8_drill_pecking (op : OperationParams) (hz : op.z_depth < op.z_start) :
    (0 < op.step_down →
      (drillPassZs op).length
          = (⌈(op.z_start - op.z_depth) / op.step_down⌉).toNat ∧
      (drillPassZs op).getLast? = some op.z_depth ∧
      (∀ w ∈ drillPassZs op, op.z_depth ≤ w) ∧
      List.Chain (fun u v => v = max (u - op.step_down) op.z_depth) op.z_start
        (drillPassZs op)) ∧
    (op.step_down = 0 → drillPassZs op = [op.z_depth]) := by
  constructor
  · intro hstep
    have hd : drillPassZs op = drillPecks op.z_start op.z_depth op.step_down := by
      simp [drillPassZs, passZs, hstep]
    rw [hd]
    exact ⟨drillPecks_length _ _ _ hstep hz, drillPecks_getLast _ _ _ hstep hz,
      drillPecks_mem _ _ _, drillPecks_chain _ _ _⟩
  · intro h0
    simp [drillPassZs, passZs, h0]

/-- Witness for C8: the drill with z_start 0, z_depth -10, step-down 3
pecks exactly four times and the last peck is exactly -10. -/
theorem c8_witness :
    exOp.z_depth < exOp.z_start ∧ (0 : ℚ) < exOp.step_down ∧
    (drillPassZs exOp).length = 4 ∧
    (drillPassZs exOp).getLast? = some (-10) ∧
    (∀ w ∈ drillPassZs exOp, (-10 : ℚ) ≤ w) := by
  have h := (c8_drill_pecking exOp (by norm_num [exOp])).1 (by norm_num [exOp])
  obtain ⟨h1, h2, h3, -⟩ := h
  refine ⟨by norm_num [exOp], by norm_num [exOp], ?_, h2, h3⟩
  rw [h1]
  show (⌈((0 : ℚ) - (-10)) / 3⌉).toNat = 4
  have hc : ⌈((0 : ℚ) - (-10)) / 3⌉ = 4 := by
    rw [Int.ceil_eq_iff]
    constructor <;> norm_num
  rw [hc]
  rfl

/-- C9: every XY coordinate the compiler emits for a circular pocket
lies within the no-gouge bound `diameter/2 - tool_diameter/2` of the
pocket center, and the final Z layer is exactly the target depth. -/
theorem c9_pocket_no_gouge (op : OperationParams) (ht : 0 < op.tool_diameter)
    (hz : op.z_depth < op.z_start) :
    (∀ p ∈ circPocketXY op,
      (p.1 - op.x) ^ 2 + (p.2 - op.y) ^ 2 ≤ (circMaxR op) ^ 2) ∧
    (pocketLayerZs op).getLast? = some op.z_depth := by
  constructor
  · intro p hp
    simp only [circPocketXY, List.mem_cons, List.mem_map] at hp
    rcases hp with rfl | ⟨r, hr, rfl⟩
    · simpa using sq_nonneg (circMaxR op)
    · have hs0 : 0 ≤ stepover op := by
        unfold stepover
        linarith
      obtain ⟨hr0, hrm⟩ := circPocketRadii_mem _ _ hs0 r hr
      have hsq : (op.x + r - op.x) ^ 2 + (op.y - op.y) ^ 2 = r ^ 2 := by ring
      rw [hsq]
      exact pow_le_pow_left₀ hr0 hrm 2
  · by_cases hstep : 0 < op.step_down
    · simp only [pocketLayerZs, passZs, if_pos hstep]
      exact drillPecks_getLast _ _ _ hstep hz
    · simp only [pocketLayerZs, passZs, if_neg hstep]
      rfl

/-- Witness for C9: the pocket with diameter 40 and tool diameter 6 has
no-gouge bound 17, every emitted XY point lies within 17 of the center,
and the last layer is exactly the target depth -5. -/
theorem c9_witness :
    (0 : ℚ) < exOp2.tool_diameter ∧ exOp2.z_depth < exOp2.z_start ∧
    circMaxR exOp2 = 17 ∧
    (∀ p ∈ circPocketXY exOp2,
      (p.1 - exOp2.x) ^ 2 + (p.2 - exOp2.y) ^ 2 ≤ (17 : ℚ) ^ 2) ∧
    (pocketLayerZs exOp2).getLast? = some exOp2.z_depth := by
  have h := c9_pocket_no_gouge exOp2 (by norm_num [exOp2, exOp]) (by norm_num [exOp2, exOp])
  have hm : circMaxR exOp2 = 17 := by norm_num [circMaxR, exOp2, exOp]
  refine ⟨by norm_num [exOp2, exOp], by norm_num [exOp2, exOp], hm, ?_, h.2⟩
  rw [← hm]
  exact h.1

/-- C10: when the analysis call rejects with a payload whose name is
AbortError or whose message is Aborted, the turn handler appends no
message of its own and leaves operations, stock and compiled output
untouched. -/
theorem c10_abort_resolution (mobile : Bool) (msgId : String) (mode : AppMode)
    (token : Nat) (e : ErrPayload) (s : AppState)
    (habort : isAbortPayload e = true) :
    (resolveTurn mobile msgId mode token (.failure e) s).messages = s.messages ∧
    (resolveTurn mobile msgId mode token (.failure e) s).operations = s.operations ∧
    (resolveTurn mobile msgId mode token (.failure e) s).currentStock = s.currentStock ∧
    (resolveTurn mobile msgId mode token (.failure e) s).cncData = s.cncData := by
  refine ⟨?_, ?_, ?_, ?_⟩ <;>
    simp [resolveTurn, habort, finallyStep_messages, finallyStep_operations,
      finallyStep_currentStock, finallyStep_cncData]

/-- Witness for C10: the concrete abort payload resolving against a
mid-turn state (current token still held) leaves transcript and ledger
untouched. -/
theorem c10_witness :
    isAbortPayload abortedPayload = true ∧
    (resolveTurn false "m3" .GENERATE 0 (.failure abortedPayload)
        (sendStart "u3" "slot" none initialState).1).messages
      = (sendStart "u3" "slot" none initialState).1.messages ∧
    (resolveTurn false "m3" .GENERATE 0 (.failure abortedPayload)
        (sendStart "u3" "slot" none initialState).1).operations
      = (sendStart "u3" "slot" none initialState).1.operations ∧
    (resolveTurn false "m3" .GENERATE 0 (.failure abortedPayload)
        (sendStart "u3" "slot" none initialState).1).cncData
      = (sendStart "u3" "slot" none initialState).1.cncData := by
  have h := c10_abort_resolution false "m3" .GENERATE 0 abortedPayload
    (sendStart "u3" "slot" none initialState).1 (by decide)
  exact ⟨by decide, h.1, h.2.1, h.2.2.2⟩
